import Mathlib

/-!
Verification of the dungeon-generation core in src/src/world.rs.

Shallow embedding conventions:
- Rust usize becomes Nat (truncated subtraction mirrors the wrapping cases that
  the source never reaches in the proved regimes; where underflow would panic in
  Rust, theorems carry hypotheses that keep the arithmetic in range).
- A Rust tuple component p.0 is written p.1 in Lean, and p.1 is p.2.
- The random number generator is abstracted as a stream s : Nat -> Nat of seed
  values; rand gen_range(lo, hi) with lo < hi is modelled as lo + s n % (hi - lo),
  which ranges exactly over [lo, hi); every concrete draw sequence corresponds to
  some stream. The gen_range panic when lo >= hi is outside the modelled regime
  and theorems avoid it through explicit size hypotheses.
- The f32 values produced by the distance function are used by the source only to
  sort candidate rooms. On integer coordinates the comparison of
  sqrt(dx^2 + dy^2) values agrees with the comparison of the exact integer
  squared distances (sqrt is strictly monotone, f32 represents the integers
  involved exactly for grid sizes up to about 2^10, and the f32 sqrt is
  correctly rounded), so room_distances is embedded with exact Nat squared
  distances, preserving the sort order. Rust sort_by is stable, and so is
  List.insertionSort, so the two sorts agree elementwise for this total order.
- The unbounded while loop in random_room is embedded with an explicit fuel
  parameter: the source code corresponds to unlimited fuel, and a return of
  none at every fuel witnesses that the source loop never exits.
-/

/-- Grid coordinates (x, y); source type Point = (usize, usize). -/
abbrev Point := Nat × Nat

/-- Source enum TileType. -/
inductive TileType where
  | Empty
  | Wall
  | Corridor
  | Floor
deriving DecidableEq, Repr

/-- Source enum CorridorType. -/
inductive CorridorType where
  | Horizontal
  | Vertical
deriving DecidableEq, Repr

/-- Source constant LEFT: (-1i8, 0). -/
def LEFT : Int × Int := (-1, 0)

/-- Source constant RIGHT: (1i8, 0). -/
def RIGHT : Int × Int := (1, 0)

/-- Source constant UP: (0, -1i8). -/
def UP : Int × Int := (0, -1)

/-- Source constant DOWN: (0, 1i8). -/
def DOWN : Int × Int := (0, 1)

/-- Source struct RoomEdge. The Rust field named end is written endp here
(end is a Lean keyword). -/
structure RoomEdge where
  start : Point
  mid_point : Point
  endp : Point
  corridor_dir : Int × Int
deriving DecidableEq, Repr

/-- RoomEdge::new. The mid_point formula mirrors the source literally,
including its operator precedence: (end.0 - start.0 / 2, end.1 - start.1 / 2). -/
def RoomEdge.new (start endp : Point) (corridor_dir : Int × Int) : RoomEdge :=
  { start := start
    endp := endp
    mid_point := (endp.1 - start.1 / 2, endp.2 - start.2 / 2)
    corridor_dir := corridor_dir }

/-- Source struct Room. The Rust fixed array [RoomEdge; 4] is embedded as a
list of four edges. -/
structure Room where
  start : Point
  center : Point
  width : Nat
  height : Nat
  edges : List RoomEdge
deriving DecidableEq, Repr

/-- Room::new. -/
def Room.new (start : Point) (width height : Nat) : Room :=
  { start := start
    width := width
    height := height
    center := (start.1 + width / 2, start.2 + height / 2)
    edges := [
      RoomEdge.new start (start.1 + width, start.2) UP,
      RoomEdge.new start (start.1, start.2 + height) LEFT,
      RoomEdge.new (start.1, start.2 + height) (start.1 + width, start.2 + height) DOWN,
      RoomEdge.new (start.1 + width, start.2) (start.1 + width, start.2) RIGHT ] }

/-- Source struct Corridor. -/
structure Corridor where
  start : Point
  length : Nat
  direction : CorridorType
deriving DecidableEq, Repr

/-- Corridor::new. -/
def Corridor.new (start : Point) (length : Nat) (direction : CorridorType) : Corridor :=
  { start := start, length := length, direction := direction }

/-- Source struct TileGrid: grid[y][x], a size x size matrix of tiles, embedded
as a total function on coordinates together with the intended size. All source
accesses stay inside [0, size) in the regimes the theorems cover. -/
structure TileGrid where
  size : Nat
  grid : Nat → Nat → TileType

/-- TileGrid::new(size): every cell Empty. -/
def TileGrid.new (size : Nat) : TileGrid :=
  { size := size, grid := fun _ _ => TileType.Empty }

/-- TileGrid::set_tile: self.grid[y][x] = tile (destructive write). -/
def TileGrid.set_tile (g : TileGrid) (x y : Nat) (tile : TileType) : TileGrid :=
  { g with grid := fun y2 x2 => if y2 = y ∧ x2 = x then tile else g.grid y2 x2 }

/-- TileGrid::set_empty_tile: writes tile at (x, y) only when the current value
matches Empty, otherwise rewrites the current value (a no-op). -/
def TileGrid.set_empty_tile (g : TileGrid) (x y : Nat) (tile : TileType) : TileGrid :=
  g.set_tile x y
    (match g.grid y x with
     | TileType.Empty => tile
     | t => t)

/-- Rust for x in a..b iterates over this list. -/
def rustRange (a b : Nat) : List Nat := List.range' a (b - a)

/-- Room::tile (impl Tileable for Room): wall ring with non-destructive writes,
then destructive Floor fill of the strict interior. The source returns
Ok(()) unconditionally, so the Result wrapper is dropped. -/
def Room.tile (r : Room) (g : TileGrid) : TileGrid :=
  let endx := r.start.1 + r.width
  let endy := r.start.2 + r.height
  let g1 := (rustRange r.start.1 (endx + 1)).foldl
    (fun g x => (g.set_empty_tile x r.start.2 TileType.Wall).set_empty_tile x endy TileType.Wall) g
  let g2 := (rustRange r.start.2 endy).foldl
    (fun g y => (g.set_empty_tile r.start.1 y TileType.Wall).set_empty_tile endx y TileType.Wall) g1
  (rustRange (r.start.1 + 1) endx).foldl
    (fun g x => (rustRange (r.start.2 + 1) endy).foldl
      (fun g y => g.set_tile x y TileType.Floor) g) g2

/-- Corridor::tile_vertical: walls at x-1 and x+1, floor at x, for each y. -/
def Corridor.tile_vertical (c : Corridor) (g : TileGrid) : TileGrid :=
  let x := c.start.1
  (rustRange c.start.2 (c.start.2 + c.length)).foldl
    (fun g y =>
      (((g.set_empty_tile (x - 1) y TileType.Wall).set_tile x y TileType.Floor).set_empty_tile
        (x + 1) y TileType.Wall)) g

/-- Corridor::tile_horizontal, embedded literally: the source writes the wall
at (x, y - 1) twice and never writes (x, y + 1). -/
def Corridor.tile_horizontal (c : Corridor) (g : TileGrid) : TileGrid :=
  let y := c.start.2
  (rustRange c.start.1 (c.start.1 + c.length)).foldl
    (fun g x =>
      (((g.set_empty_tile x (y - 1) TileType.Wall).set_tile x y TileType.Floor).set_empty_tile
        x (y - 1) TileType.Wall)) g

/-- Corridor::tile (impl Tileable for Corridor); always Ok in the source. -/
def Corridor.tile (c : Corridor) (g : TileGrid) : TileGrid :=
  match c.direction with
  | CorridorType.Horizontal => c.tile_horizontal g
  | CorridorType.Vertical => c.tile_vertical g

/-- Source struct World. -/
structure World where
  size : Nat
  rooms : List Room
  corridors : List Corridor
deriving Repr

/-- hor_dist: signed horizontal distance point2.0 - point1.0 (f32 in the
source, exact on integer grid coordinates). -/
def hor_dist (point1 point2 : Point) : Int :=
  (point2.1 : Int) - (point1.1 : Int)

/-- ver_dist: signed vertical distance point2.1 - point1.1. -/
def ver_dist (point1 point2 : Point) : Int :=
  (point2.2 : Int) - (point1.2 : Int)

/-- The squared Euclidean distance between two grid points. The source computes
sqrt of this value in f32 and uses it only in order comparisons, which agree
with comparisons of this exact Nat (see the file header). -/
def distance_sq (point1 point2 : Point) : Nat :=
  (hor_dist point1 point2).natAbs ^ 2 + (ver_dist point1 point2).natAbs ^ 2

/-- World::overlaps: axis-aligned bounding-box test of a candidate rectangle
against every existing room, with the fixed padding argument. -/
def World.overlaps (w : World) (start : Point) (width height padding : Nat) : Bool :=
  w.rooms.any fun room =>
    decide (room.start.1 < start.1 + width + padding) &&
    decide (room.start.1 + room.width + padding > start.1) &&
    decide (room.start.2 < start.2 + height + padding) &&
    decide (room.start.2 + room.height + padding > start.2)

/-- The comparison key used by World::room_distances when sorting: the source
comparator dista.partial_cmp(distb) on non-NaN f32 distances. -/
def distLe (a b : Nat × Nat) : Prop := a.2 ≤ b.2

instance : DecidableRel distLe := fun a b => inferInstanceAs (Decidable (a.2 ≤ b.2))

instance : IsTotal (Nat × Nat) distLe := ⟨fun a b => Nat.le_total a.2 b.2⟩

instance : IsTrans (Nat × Nat) distLe := ⟨fun _ _ _ h1 h2 => Nat.le_trans h1 h2⟩

/-- World::room_distances: pair every room index with the distance from point
to its center and sort ascending by distance (stable sort, as in Rust). -/
def World.room_distances (w : World) (point : Point) : List (Nat × Nat) :=
  List.insertionSort distLe
    (w.rooms.enum.map fun p => (p.1, distance_sq point p.2.center))

/-- gen_range(lo, hi) on the abstract seed stream: the value lo + s n % (hi - lo)
ranges exactly over [lo, hi) when lo < hi. -/
def genRange (s : Nat → Nat) (n lo hi : Nat) : Nat := lo + s n % (hi - lo)

/-- The rejection-sampling while loop of World::random_room, with explicit
fuel. Each iteration draws a fresh start point from the stream (two seeds per
iteration, starting at index idx) and exits only when the candidate does not
overlap an existing room; the source has no fuel and loops forever when no
candidate is ever accepted. -/
def World.randomRoomLoop (w : World) (room_width room_height : Nat)
    (s : Nat → Nat) : Nat → Nat → Option Point
  | _, 0 => none
  | idx, fuel + 1 =>
    let start : Point :=
      (genRange s idx 0 (w.size - room_width), genRange s (idx + 1) 0 (w.size - room_height))
    if w.overlaps start room_width room_height 2 then
      w.randomRoomLoop room_width room_height s (idx + 2) fuel
    else
      some start

/-- World::random_room: draw width and height from gen_range(3, 6), then loop
on start candidates until one does not overlap. A some result is the Ok(Room)
of the source; none means the fuel ran out while the source would still be
looping. -/
def World.random_room (w : World) (s : Nat → Nat) (fuel : Nat) : Option Room :=
  let room_width := genRange s 0 3 6
  let room_height := genRange s 1 3 6
  match w.randomRoomLoop room_width room_height s 2 fuel with
  | some start => some (Room.new start room_width room_height)
  | none => none

/-- The corridor-derivation loop at the end of World::generate: one corridor
per room, starting at the room center, horizontal, of length
hor_dist(center, nearest.center) as usize (a saturating cast of the signed f32
distance, exact on integer coordinates). distances[1] of the source is the
second element of the sorted distance list; the source indexing panics when
fewer than two rooms exist, a case excluded by the generated room count, so a
default is supplied for totality. -/
def generateCorridors (size : Nat) (rooms : List Room) : List Corridor :=
  rooms.map fun room =>
    let distances := (World.mk size rooms []).room_distances room.center
    let nearest_room := rooms.getD (distances.getD 1 (0, 0)).1 (Room.new (0, 0) 0 0)
    Corridor.new room.center (hor_dist room.center nearest_room.center).toNat
      CorridorType.Horizontal

/-- The acceptance invariant World::generate maintains while pushing rooms:
each room, at the moment it was accepted by random_room, did not overlap any
previously accepted room under the padding-2 test. -/
def roomsAccepted (size : Nat) (rooms : List Room) : Prop :=
  ∀ j, (h : j < rooms.length) →
    (World.mk size (rooms.take j) []).overlaps (rooms.get ⟨j, h⟩).start
      (rooms.get ⟨j, h⟩).width (rooms.get ⟨j, h⟩).height 2 = false

instance (size : Nat) (rooms : List Room) : Decidable (roomsAccepted size rooms) :=
  Nat.decidableBallLT rooms.length _

/-- The shape of a room produced by World::random_room: dimensions drawn from
gen_range(3, 6), start drawn from gen_range(0, size - dim), and the derived
fields computed by Room::new. -/
def roomFromSampling (size : Nat) (r : Room) : Prop :=
  3 ≤ r.width ∧ r.width < 6 ∧ 3 ≤ r.height ∧ r.height < 6 ∧
  r.start.1 < size - r.width ∧ r.start.2 < size - r.height ∧
  r = Room.new r.start r.width r.height

instance (size : Nat) (r : Room) : Decidable (roomFromSampling size r) := by
  unfold roomFromSampling; infer_instance

/-- Relational embedding of the postcondition of World::generate on a freshly
constructed World: gen_range(3, 5) rooms are pushed, each accepted by the
random_room rejection loop, and then the corridor loop appends exactly
generateCorridors. -/
def GeneratedWorld (w : World) : Prop :=
  3 ≤ w.rooms.length ∧ w.rooms.length ≤ 4 ∧
  (∀ r ∈ w.rooms, roomFromSampling w.size r) ∧
  roomsAccepted w.size w.rooms ∧
  w.corridors = generateCorridors w.size w.rooms

instance (w : World) : Decidable (GeneratedWorld w) := by
  unfold GeneratedWorld; infer_instance

/-- World::to_tilegrid: fresh grid of side size, every room tiled in order,
then the corridor loop, whose body in the source is an empty todo comment and
performs no write. -/
def World.to_tilegrid (w : World) : TileGrid :=
  let grid := TileGrid.new w.size
  let grid := w.rooms.foldl (fun grid room => room.tile grid) grid
  let grid := w.corridors.foldl (fun grid _corridor => grid) grid
  grid

/-- World::to_tilegrid viewed as a call on a borrowed receiver: the method
takes self by shared reference, so the World the caller retains afterwards is
the unchanged receiver, returned here alongside the grid. -/
def World.to_tilegrid_call (w : World) : TileGrid × World :=
  (w.to_tilegrid, w)

/-- A concrete post-generate World used to evaluate the code on explicit
inputs: three pairwise non-overlapping 3 by 3 rooms on a 20 by 20 grid, with
the corridors World::generate derives for them. -/
def rooms3 : List Room :=
  [Room.new (0, 0) 3 3, Room.new (10, 0) 3 3, Room.new (0, 10) 3 3]

/-- The World state after generate() has produced exactly the rooms rooms3. -/
def world3 : World :=
  { size := 20, rooms := rooms3, corridors := generateCorridors 20 rooms3 }

/-- A World whose single accepted 5 by 5 room leaves no padding-2 space for any
further 3..5 sized room on a 10 by 10 grid: every candidate start overlaps. -/
def fullWorld : World :=
  { size := 10, rooms := [Room.new (0, 0) 5 5], corridors := [] }

/-- The value a non-destructive Wall write leaves at a cell. -/
def emptyToWall (t : TileType) : TileType :=
  if t = TileType.Empty then TileType.Wall else t

/-- The strict interior of a room rectangle, the region destructively filled
with Floor by Room::tile. -/
def Room.interiorCell (r : Room) (x y : Nat) : Prop :=
  r.start.1 + 1 ≤ x ∧ x < r.start.1 + r.width ∧
  r.start.2 + 1 ≤ y ∧ y < r.start.2 + r.height

/-- The one-tile wall ring of a room: the boundary of
[start.0, start.0 + width] x [start.1, start.1 + height]. -/
def Room.ringCell (r : Room) (x y : Nat) : Prop :=
  (r.start.1 ≤ x ∧ x ≤ r.start.1 + r.width ∧ r.start.2 ≤ y ∧ y ≤ r.start.2 + r.height) ∧
  (x = r.start.1 ∨ x = r.start.1 + r.width ∨ y = r.start.2 ∨ y = r.start.2 + r.height)

instance (r : Room) (x y : Nat) : Decidable (r.interiorCell x y) := by
  unfold Room.interiorCell
  infer_instance

instance (r : Room) (x y : Nat) : Decidable (r.ringCell x y) := by
  unfold Room.ringCell
  infer_instance

/-- A grid in which no cell holds the Corridor tile. -/
def NoCorridorTile (g : TileGrid) : Prop :=
  ∀ y x, g.grid y x ≠ TileType.Corridor

/-- Membership of a point in the padding-expanded bounding box
[start, start + dims + padding) of a room, following the spec wording. -/
def inPaddedBox (r : Room) (padding x y : Nat) : Prop :=
  r.start.1 ≤ x ∧ x < r.start.1 + r.width + padding ∧
  r.start.2 ≤ y ∧ y < r.start.2 + r.height + padding

/-- A grid holding one Floor cell at (1, 1), used to evaluate the
non-destructive write on a concrete input. -/
def gFloor : TileGrid := (TileGrid.new 4).set_tile 1 1 TileType.Floor

/-- The all-zero seed stream. -/
def szero : Nat → Nat := fun _ => 0

/-- A fresh empty 10 by 10 World. -/
def world10 : World := { size := 10, rooms := [], corridors := [] }

/-- Default corridor value used with List.getD in theorem statements. -/
def cdef : Corridor := Corridor.new (0, 0) 0 CorridorType.Horizontal

/-- Default room value used with List.getD in theorem statements. -/
def rdef : Room := Room.new (0, 0) 0 0

/-- C7: TileGrid::set_empty_tile writes the given tile at (x, y) only when the
current cell is Empty, leaves any non-Empty cell unchanged at (x, y) — in
particular a Wall write onto a Floor cell leaves Floor — and changes no other
cell. -/
theorem set_empty_tile_spec (g : TileGrid) (x y : Nat) (t : TileType) :
    (g.grid y x = TileType.Empty → (g.set_empty_tile x y t).grid y x = t) ∧
    (g.grid y x ≠ TileType.Empty → (g.set_empty_tile x y t).grid y x = g.grid y x) ∧
    (∀ y2 x2, ¬(y2 = y ∧ x2 = x) → (g.set_empty_tile x y t).grid y2 x2 = g.grid y2 x2) ∧
    (g.grid y x = TileType.Floor →
      (g.set_empty_tile x y TileType.Wall).grid y x = TileType.Floor) := by
  refine ⟨fun h => ?_, fun h => ?_, fun y2 x2 h => ?_, fun h => ?_⟩ <;>
    simp only [TileGrid.set_empty_tile, TileGrid.set_tile] <;>
    rcases hv : g.grid y x <;> simp_all

/-- Witness for C7 at a concrete grid: the cell (1, 1) of gFloor holds Floor,
and a non-destructive Wall write leaves it Floor. -/
theorem set_empty_tile_spec_witness :
    gFloor.grid 1 1 = TileType.Floor ∧
    (gFloor.set_empty_tile 1 1 TileType.Wall).grid 1 1 = TileType.Floor :=
  ⟨by decide, (set_empty_tile_spec gFloor 1 1 TileType.Wall).2.2.2 (by decide)⟩

/-- C3 fails on the code for horizontal corridors: evaluating
Corridor::tile on the corridor of length 1 at (2, 2) over an empty 6 by 6 grid
paints Wall at (2, 1) and Floor at (2, 2), but leaves (2, 3) Empty — the
source writes the (x, y - 1) wall twice and never computes (x, y + 1). -/
theorem tile_horizontal_single_side :
    ((Corridor.new (2, 2) 1 CorridorType.Horizontal).tile (TileGrid.new 6)).grid 1 2 =
      TileType.Wall ∧
    ((Corridor.new (2, 2) 1 CorridorType.Horizontal).tile (TileGrid.new 6)).grid 2 2 =
      TileType.Floor ∧
    ((Corridor.new (2, 2) 1 CorridorType.Horizontal).tile (TileGrid.new 6)).grid 3 2 =
      TileType.Empty := by
  decide

/-- C1 fails on the code: world3 is a state World::generate can produce (its
corridor list is exactly the derived one, whose first corridor starts at
(1, 1) with length 10), yet to_tilegrid leaves the corridor path cell
(x, y) = (5, 1) Empty, because the corridor loop body is an empty todo and
rasterizes nothing. -/
theorem to_tilegrid_skips_corridors :
    GeneratedWorld world3 ∧
    world3.corridors.getD 0 cdef = Corridor.new (1, 1) 10 CorridorType.Horizontal ∧
    world3.to_tilegrid.grid 1 5 = TileType.Empty := by
  decide

/-- Helper: on fullWorld, every candidate the rejection loop draws overlaps the
existing 5 by 5 room, so the loop never exits, whatever the seeds and fuel. -/
theorem randomRoomLoop_fullWorld_none (rw rh : Nat) (hw : 3 ≤ rw ∧ rw < 6)
    (hh : 3 ≤ rh ∧ rh < 6) (s : Nat → Nat) :
    ∀ fuel idx, fullWorld.randomRoomLoop rw rh s idx fuel = none := by
  intro fuel
  induction fuel with
  | zero => intro idx; rfl
  | succ n ih =>
    intro idx
    have hx : genRange s idx 0 (fullWorld.size - rw) < 7 := by
      have h0 : 0 < fullWorld.size - rw := by
        show 0 < 10 - rw
        omega
      have h1 := Nat.mod_lt (s idx) h0
      have h2 : fullWorld.size - rw ≤ 7 := by
        show 10 - rw ≤ 7
        omega
      simp only [genRange, Nat.zero_add]
      exact lt_of_lt_of_le h1 h2
    have hy : genRange s (idx + 1) 0 (fullWorld.size - rh) < 7 := by
      have h0 : 0 < fullWorld.size - rh := by
        show 0 < 10 - rh
        omega
      have h1 := Nat.mod_lt (s (idx + 1)) h0
      have h2 : fullWorld.size - rh ≤ 7 := by
        show 10 - rh ≤ 7
        omega
      simp only [genRange, Nat.zero_add]
      exact lt_of_lt_of_le h1 h2
    have hx2 : genRange s idx 0 (10 - rw) < 7 := hx
    have hy2 : genRange s (idx + 1) 0 (10 - rh) < 7 := hy
    have hov : fullWorld.overlaps
        (genRange s idx 0 (fullWorld.size - rw), genRange s (idx + 1) 0 (fullWorld.size - rh))
        rw rh 2 = true := by
      simp only [World.overlaps, fullWorld, rooms3, Room.new, List.any_cons, List.any_nil,
        Bool.or_false, Bool.and_eq_true, decide_eq_true_eq]
      refine ⟨⟨⟨?_, ?_⟩, ?_⟩, ?_⟩ <;> omega
    rw [World.randomRoomLoop]
    simp only [hov, if_true]
    exact ih (idx + 2)

/-- C2 fails on the code: on fullWorld, whose single accepted room blocks every
candidate position, World::random_room never returns for any seed stream and
any number of attempts — the source has no attempt bound and loops forever
instead of failing with a GenerationExhausted / no-space-available outcome. -/
theorem random_room_never_exits (s : Nat → Nat) (fuel : Nat) :
    fullWorld.random_room s fuel = none := by
  have h1 : 3 ≤ genRange s 0 3 6 ∧ genRange s 0 3 6 < 6 := by
    have := Nat.mod_lt (s 0) (show 0 < 6 - 3 by norm_num)
    simp only [genRange]
    omega
  have h2 : 3 ≤ genRange s 1 3 6 ∧ genRange s 1 3 6 < 6 := by
    have := Nat.mod_lt (s 1) (show 0 < 6 - 3 by norm_num)
    simp only [genRange]
    omega
  simp only [World.random_room,
    randomRoomLoop_fullWorld_none (genRange s 0 3 6) (genRange s 1 3 6) h1 h2 s fuel 2]

/-- Helper: a start point the rejection loop accepts was drawn by
gen_range(0, size - dim) on each axis, hence lies below size - dim. -/
theorem randomRoomLoop_in_range (w : World) (rw rh : Nat) (s : Nat → Nat)
    (hw : 0 < w.size - rw) (hh : 0 < w.size - rh) :
    ∀ fuel idx st, w.randomRoomLoop rw rh s idx fuel = some st →
      st.1 < w.size - rw ∧ st.2 < w.size - rh := by
  intro fuel
  induction fuel with
  | zero =>
    intro idx st h
    exact absurd h (by simp [World.randomRoomLoop])
  | succ n ih =>
    intro idx st h
    rw [World.randomRoomLoop] at h
    by_cases hov : w.overlaps
        (genRange s idx 0 (w.size - rw), genRange s (idx + 1) 0 (w.size - rh)) rw rh 2 = true
    · simp only [hov, if_true] at h
      exact ih (idx + 2) st h
    · rw [Bool.not_eq_true] at hov
      simp only [hov, Bool.false_eq_true, if_false, Option.some.injEq] at h
      subst h
      constructor
      · simpa only [genRange, Nat.zero_add] using Nat.mod_lt (s idx) hw
      · simpa only [genRange, Nat.zero_add] using Nat.mod_lt (s (idx + 1)) hh

/-- C8: a room accepted by World::random_room on a grid of side greater than 5
(large enough that every width and height draw stays below the side) has its
wall ring — the rectangle [start, start + width] x [start, start + height] —
entirely inside [0, size) in both coordinates, so room rasterization writes
only in-bounds cells. -/
theorem random_room_in_bounds (w : World) (s : Nat → Nat) (fuel : Nat) (r : Room)
    (hsize : 5 < w.size) (h : w.random_room s fuel = some r) :
    r.start.1 + r.width < w.size ∧ r.start.2 + r.height < w.size := by
  have hw6 : genRange s 0 3 6 < 6 := by
    have := Nat.mod_lt (s 0) (show 0 < 6 - 3 by norm_num)
    simp only [genRange]
    omega
  have hh6 : genRange s 1 3 6 < 6 := by
    have := Nat.mod_lt (s 1) (show 0 < 6 - 3 by norm_num)
    simp only [genRange]
    omega
  have hw0 : 0 < w.size - genRange s 0 3 6 := by omega
  have hh0 : 0 < w.size - genRange s 1 3 6 := by omega
  simp only [World.random_room] at h
  rcases hl : w.randomRoomLoop (genRange s 0 3 6) (genRange s 1 3 6) s 2 fuel with _ | st
  · rw [hl] at h
    exact absurd h (by simp)
  · rw [hl] at h
    simp only [Option.some.injEq] at h
    subst h
    have hst := randomRoomLoop_in_range w (genRange s 0 3 6) (genRange s 1 3 6) s hw0 hh0
      fuel 2 st hl
    simp only [Room.new]
    constructor <;> omega

/-- Witness for C8 at concrete inputs: on the fresh 10 by 10 world with the
all-zero seed stream and one unit of fuel, random_room succeeds with the room
at (0, 0) of size 3 by 3, whose ring stays inside the grid. -/
theorem random_room_in_bounds_witness :
    5 < world10.size ∧
    world10.random_room szero 1 = some (Room.new (0, 0) 3 3) ∧
    ((Room.new (0, 0) 3 3).start.1 + (Room.new (0, 0) 3 3).width < world10.size ∧
      (Room.new (0, 0) 3 3).start.2 + (Room.new (0, 0) 3 3).height < world10.size) :=
  ⟨by decide, by decide,
    random_room_in_bounds world10 szero 1 (Room.new (0, 0) 3 3) (by decide) (by decide)⟩

/-- Helper: when room j was accepted, the overlap test against each earlier
room i reported false, and that test is exactly the intersection test of the
two padding-expanded boxes, so those boxes are disjoint. -/
theorem accepted_ordered_disjoint (size : Nat) (rooms : List Room)
    (hacc : roomsAccepted size rooms) (i j : Nat) (hij : i < j) (hj : j < rooms.length) :
    ¬ ∃ x y, inPaddedBox (rooms.get ⟨i, lt_trans hij hj⟩) 2 x y ∧
      inPaddedBox (rooms.get ⟨j, hj⟩) 2 x y := by
  rintro ⟨x, y, hA, hB⟩
  have h := hacc j hj
  simp only [World.overlaps, List.any_eq_false] at h
  have hmem : rooms.get ⟨i, lt_trans hij hj⟩ ∈ rooms.take j := by
    have hg := List.get_take rooms (lt_trans hij hj) hij
    rw [hg]
    exact List.get_mem _ _ _
  have hfalse := h _ hmem
  simp only [Bool.and_eq_true, decide_eq_true_eq, not_and] at hfalse
  obtain ⟨hA1, hA2, hA3, hA4⟩ := hA
  obtain ⟨hB1, hB2, hB3, hB4⟩ := hB
  -- the four code inequalities all hold because (x, y) lies in both boxes
  exact hfalse ⟨⟨by omega, by omega⟩, by omega⟩ (by omega)

/-- C5: for any two distinct rooms accepted into the same World by generate(),
the padding-2 expanded bounding boxes [start, start + dims + 2) do not
intersect: no point lies in both. -/
theorem generated_rooms_padded_disjoint (w : World) (hgen : GeneratedWorld w)
    (i j : Nat) (hi : i < w.rooms.length) (hj : j < w.rooms.length) (hne : i ≠ j) :
    ¬ ∃ x y, inPaddedBox (w.rooms.get ⟨i, hi⟩) 2 x y ∧
      inPaddedBox (w.rooms.get ⟨j, hj⟩) 2 x y := by
  obtain ⟨-, -, -, hacc, -⟩ := hgen
  rcases Nat.lt_or_ge i j with hlt | hge
  · exact accepted_ordered_disjoint w.size w.rooms hacc i j hlt hj
  · have hlt : j < i := by omega
    rintro ⟨x, y, hA, hB⟩
    exact accepted_ordered_disjoint w.size w.rooms hacc j i hlt hi ⟨x, y, hB, hA⟩

/-- Witness for C5 at concrete inputs: world3 is a generated World and the
padded boxes of its first two rooms share no point. -/
theorem generated_rooms_padded_disjoint_witness :
    GeneratedWorld world3 ∧ (0 : Nat) ≠ 1 ∧
    ¬ ∃ x y, inPaddedBox (world3.rooms.get ⟨0, by decide⟩) 2 x y ∧
      inPaddedBox (world3.rooms.get ⟨1, by decide⟩) 2 x y :=
  ⟨by decide, by decide,
    generated_rooms_padded_disjoint world3 (by decide) 0 1 (by decide) (by decide) (by decide)⟩

/-- Cell-level description of TileGrid::set_tile. -/
theorem set_tile_grid_eq (g : TileGrid) (x y : Nat) (t : TileType) (y2 x2 : Nat) :
    (g.set_tile x y t).grid y2 x2 = if y2 = y ∧ x2 = x then t else g.grid y2 x2 := rfl

/-- Idempotence of the non-destructive Wall value. -/
theorem emptyToWall_idem (t : TileType) : emptyToWall (emptyToWall t) = emptyToWall t := by
  rcases t <;> rfl

/-- Cell-level description of a non-destructive Wall write. -/
theorem set_empty_wall_cell (g : TileGrid) (x y y2 x2 : Nat) :
    (g.set_empty_tile x y TileType.Wall).grid y2 x2 =
      if y2 = y ∧ x2 = x then emptyToWall (g.grid y x) else g.grid y2 x2 := by
  rw [TileGrid.set_empty_tile, set_tile_grid_eq]
  rcases h : g.grid y x <;> simp [emptyToWall, h]

/-- One iteration of the top/bottom wall loop of Room::tile writes the two
cells (x, sy) and (x, endy) non-destructively. -/
theorem wallRowPair_cell (g : TileGrid) (a sy endy : Nat) (hne : sy ≠ endy) (y2 x2 : Nat) :
    ((g.set_empty_tile a sy TileType.Wall).set_empty_tile a endy TileType.Wall).grid y2 x2 =
      if y2 = endy ∧ x2 = a then emptyToWall (g.grid endy a)
      else if y2 = sy ∧ x2 = a then emptyToWall (g.grid sy a)
      else g.grid y2 x2 := by
  have hinner : (g.set_empty_tile a sy TileType.Wall).grid endy a = g.grid endy a := by
    rw [set_empty_wall_cell, if_neg (fun hc => hne hc.1.symm)]
  rw [set_empty_wall_cell, hinner, set_empty_wall_cell]

/-- One iteration of the left/right wall loop of Room::tile writes the two
cells (sx, y) and (endx, y) non-destructively. -/
theorem wallColPair_cell (g : TileGrid) (sx endx b : Nat) (hne : sx ≠ endx) (y2 x2 : Nat) :
    ((g.set_empty_tile sx b TileType.Wall).set_empty_tile endx b TileType.Wall).grid y2 x2 =
      if y2 = b ∧ x2 = endx then emptyToWall (g.grid b endx)
      else if y2 = b ∧ x2 = sx then emptyToWall (g.grid b sx)
      else g.grid y2 x2 := by
  have hinner : (g.set_empty_tile sx b TileType.Wall).grid b endx = g.grid b endx := by
    rw [set_empty_wall_cell, if_neg (fun hc => hne hc.2.symm)]
  rw [set_empty_wall_cell, hinner, set_empty_wall_cell]

/-- The top/bottom wall loop of Room::tile leaves every cell outside rows sy
and endy untouched and writes those rows non-destructively at the visited
columns. -/
theorem wallRowLoop_grid (sy endy : Nat) (hne : sy ≠ endy) :
    ∀ (xs : List Nat) (g : TileGrid) (y2 x2 : Nat),
      ((xs.foldl (fun g x =>
          (g.set_empty_tile x sy TileType.Wall).set_empty_tile x endy TileType.Wall) g).grid y2 x2)
        = if x2 ∈ xs ∧ (y2 = sy ∨ y2 = endy) then emptyToWall (g.grid y2 x2)
          else g.grid y2 x2 := by
  intro xs
  induction xs with
  | nil =>
    intro g y2 x2
    simp
  | cons a xs ih =>
    intro g y2 x2
    rw [List.foldl_cons, ih]
    simp only [wallRowPair_cell g a sy endy hne, List.mem_cons]
    by_cases h1 : x2 ∈ xs <;> by_cases h2 : x2 = a <;>
      by_cases h3 : y2 = sy <;> by_cases h4 : y2 = endy <;>
      simp_all [emptyToWall_idem]

/-- The left/right wall loop of Room::tile leaves every cell outside columns
sx and endx untouched and writes those columns non-destructively at the
visited rows. -/
theorem wallColLoop_grid (sx endx : Nat) (hne : sx ≠ endx) :
    ∀ (ys : List Nat) (g : TileGrid) (y2 x2 : Nat),
      ((ys.foldl (fun g y =>
          (g.set_empty_tile sx y TileType.Wall).set_empty_tile endx y TileType.Wall) g).grid y2 x2)
        = if y2 ∈ ys ∧ (x2 = sx ∨ x2 = endx) then emptyToWall (g.grid y2 x2)
          else g.grid y2 x2 := by
  intro ys
  induction ys with
  | nil =>
    intro g y2 x2
    simp
  | cons b ys ih =>
    intro g y2 x2
    rw [List.foldl_cons, ih]
    simp only [wallColPair_cell g sx endx b hne, List.mem_cons]
    by_cases h1 : y2 ∈ ys <;> by_cases h2 : y2 = b <;>
      by_cases h3 : x2 = sx <;> by_cases h4 : x2 = endx <;>
      simp_all [emptyToWall_idem]

/-- The inner floor-fill column loop destructively paints Floor down one
column. -/
theorem fillColLoop_grid (x : Nat) :
    ∀ (ys : List Nat) (g : TileGrid) (y2 x2 : Nat),
      ((ys.foldl (fun g y => g.set_tile x y TileType.Floor) g).grid y2 x2)
        = if x2 = x ∧ y2 ∈ ys then TileType.Floor else g.grid y2 x2 := by
  intro ys
  induction ys with
  | nil =>
    intro g y2 x2
    simp
  | cons b ys ih =>
    intro g y2 x2
    rw [List.foldl_cons, ih]
    simp only [set_tile_grid_eq, List.mem_cons]
    by_cases h1 : x2 = x <;> by_cases h2 : y2 = b <;> by_cases h3 : y2 ∈ ys <;> simp_all

/-- The nested floor-fill loop of Room::tile destructively paints Floor on the
product of the visited columns and rows. -/
theorem fillRectLoop_grid (ys : List Nat) :
    ∀ (xs : List Nat) (g : TileGrid) (y2 x2 : Nat),
      ((xs.foldl (fun g x => ys.foldl (fun g y => g.set_tile x y TileType.Floor) g) g).grid y2 x2)
        = if x2 ∈ xs ∧ y2 ∈ ys then TileType.Floor else g.grid y2 x2 := by
  intro xs
  induction xs with
  | nil =>
    intro g y2 x2
    simp
  | cons a xs ih =>
    intro g y2 x2
    rw [List.foldl_cons, ih]
    simp only [fillColLoop_grid, List.mem_cons]
    by_cases h1 : x2 ∈ xs <;> by_cases h2 : x2 = a <;> by_cases h3 : y2 ∈ ys <;> simp_all

/-- Full cell-level characterization of Room::tile: Floor on the strict
interior, a non-destructive Wall on the ring, everything else untouched. -/
theorem room_tile_grid_eq (r : Room) (hw : 1 ≤ r.width) (hh : 1 ≤ r.height)
    (g : TileGrid) (y2 x2 : Nat) :
    (r.tile g).grid y2 x2 =
      if r.interiorCell x2 y2 then TileType.Floor
      else if r.ringCell x2 y2 then emptyToWall (g.grid y2 x2)
      else g.grid y2 x2 := by
  have hne1 : r.start.2 ≠ r.start.2 + r.height := by omega
  have hne2 : r.start.1 ≠ r.start.1 + r.width := by omega
  simp only [Room.tile]
  rw [fillRectLoop_grid, wallColLoop_grid _ _ hne2, wallRowLoop_grid _ _ hne1]
  simp only [rustRange, List.mem_range'_1, Room.interiorCell, Room.ringCell]
  split_ifs <;> first
    | rfl
    | (exfalso; omega)
    | rw [emptyToWall_idem]

/-- C6: rasterizing a room of width and height at least 1 with its wall ring
inside the grid paints a non-destructive one-tile Wall ring around
[start, start + width] x [start, start + height], destructively fills the
strict interior with Floor, touches nothing else, and that Floor interior
consists of exactly (width - 1) x (height - 1) cells. -/
theorem room_tile_ring_and_interior (r : Room) (g : TileGrid)
    (hw : 1 ≤ r.width) (hh : 1 ≤ r.height)
    (hbx : r.start.1 + r.width < g.size) (hby : r.start.2 + r.height < g.size) :
    (∀ x y, r.interiorCell x y → (r.tile g).grid y x = TileType.Floor) ∧
    (∀ x y, r.ringCell x y → (r.tile g).grid y x =
      (if g.grid y x = TileType.Empty then TileType.Wall else g.grid y x)) ∧
    (∀ x y, ¬ r.interiorCell x y → ¬ r.ringCell x y → (r.tile g).grid y x = g.grid y x) ∧
    ((Finset.Ico (r.start.1 + 1) (r.start.1 + r.width) ×ˢ
        Finset.Ico (r.start.2 + 1) (r.start.2 + r.height)).card
      = (r.width - 1) * (r.height - 1)) ∧
    (∀ p : Nat × Nat,
      p ∈ Finset.Ico (r.start.1 + 1) (r.start.1 + r.width) ×ˢ
        Finset.Ico (r.start.2 + 1) (r.start.2 + r.height) ↔ r.interiorCell p.1 p.2) := by
  refine ⟨fun x y hint => ?_, fun x y hring => ?_, fun x y hint hring => ?_, ?_, fun p => ?_⟩
  · rw [room_tile_grid_eq r hw hh, if_pos hint]
  · have hint : ¬ r.interiorCell x y := by
      simp only [Room.interiorCell, Room.ringCell] at hring ⊢
      omega
    rw [room_tile_grid_eq r hw hh, if_neg hint, if_pos hring]
    rfl
  · rw [room_tile_grid_eq r hw hh, if_neg hint, if_neg hring]
  · rw [Finset.card_product, Nat.card_Ico, Nat.card_Ico]
    congr 1 <;> omega
  · simp only [Finset.mem_product, Finset.mem_Ico, Room.interiorCell]
    tauto

/-- Witness for C6 at a concrete room and grid: the 3 by 3 room at (1, 1) on
an empty 8 by 8 grid satisfies the hypotheses, and its interior is Floor. -/
theorem room_tile_ring_and_interior_witness :
    (1 ≤ (Room.new (1, 1) 3 3).width ∧ 1 ≤ (Room.new (1, 1) 3 3).height ∧
      (Room.new (1, 1) 3 3).start.1 + (Room.new (1, 1) 3 3).width < (TileGrid.new 8).size ∧
      (Room.new (1, 1) 3 3).start.2 + (Room.new (1, 1) 3 3).height < (TileGrid.new 8).size) ∧
    (∀ x y, (Room.new (1, 1) 3 3).interiorCell x y →
      ((Room.new (1, 1) 3 3).tile (TileGrid.new 8)).grid y x = TileType.Floor) :=
  ⟨⟨by decide, by decide, by decide, by decide⟩,
    (room_tile_ring_and_interior (Room.new (1, 1) 3 3) (TileGrid.new 8)
      (by decide) (by decide) (by decide) (by decide)).1⟩

/-- Helper: a left fold preserves any invariant each step preserves. -/
theorem foldl_preserve {α β : Type} (P : α → Prop) (f : α → β → α)
    (hstep : ∀ a b, P a → P (f a b)) :
    ∀ (l : List β) (a : α), P a → P (l.foldl f a) := by
  intro l
  induction l with
  | nil => intro a ha; exact ha
  | cons b l ih => intro a ha; exact ih _ (hstep a b ha)

/-- A destructive write of a non-Corridor tile keeps the grid Corridor-free. -/
theorem set_tile_no_corridor (g : TileGrid) (x y : Nat) (t : TileType)
    (ht : t ≠ TileType.Corridor) (hg : NoCorridorTile g) :
    NoCorridorTile (g.set_tile x y t) := by
  intro y2 x2
  rw [set_tile_grid_eq]
  split_ifs
  · exact ht
  · exact hg y2 x2

/-- A non-destructive write of a non-Corridor tile keeps the grid
Corridor-free. -/
theorem set_empty_tile_no_corridor (g : TileGrid) (x y : Nat) (t : TileType)
    (ht : t ≠ TileType.Corridor) (hg : NoCorridorTile g) :
    NoCorridorTile (g.set_empty_tile x y t) := by
  intro y2 x2
  rw [TileGrid.set_empty_tile, set_tile_grid_eq]
  split_ifs
  · have hyx := hg y x
    rcases hv : g.grid y x <;> simp_all
  · exact hg y2 x2

/-- Room::tile writes only Wall and Floor, so it keeps a grid Corridor-free. -/
theorem room_tile_no_corridor (r : Room) (g : TileGrid) (hg : NoCorridorTile g) :
    NoCorridorTile (r.tile g) := by
  simp only [Room.tile]
  refine foldl_preserve _ _ ?_ _ _ (foldl_preserve _ _ ?_ _ _ (foldl_preserve _ _ ?_ _ _ hg))
  · intro a b ha
    exact foldl_preserve _ _ (fun a2 b2 ha2 =>
      set_tile_no_corridor _ _ _ _ (by simp) ha2) _ _ ha
  · intro a b ha
    exact set_empty_tile_no_corridor _ _ _ _ (by simp) (set_empty_tile_no_corridor _ _ _ _ (by simp) ha)
  · intro a b ha
    exact set_empty_tile_no_corridor _ _ _ _ (by simp) (set_empty_tile_no_corridor _ _ _ _ (by simp) ha)

/-- C10: every cell of the TileGrid returned by to_tilegrid is Empty, Wall or
Floor, and no rasterization path — room tiling inside the conversion, or
Corridor::tile itself — ever writes the Corridor tile variant. -/
theorem to_tilegrid_no_corridor_tile :
    (∀ (w : World) (y x : Nat),
      w.to_tilegrid.grid y x = TileType.Empty ∨ w.to_tilegrid.grid y x = TileType.Wall ∨
        w.to_tilegrid.grid y x = TileType.Floor) ∧
    (∀ (c : Corridor) (g : TileGrid), NoCorridorTile g → NoCorridorTile (c.tile g)) := by
  constructor
  · intro w y x
    have h : NoCorridorTile w.to_tilegrid := by
      simp only [World.to_tilegrid]
      refine foldl_preserve _ _ (fun a b ha => ha) _ _ ?_
      refine foldl_preserve _ _ (fun a b ha => room_tile_no_corridor b a ha) _ _ ?_
      intro y2 x2
      simp [TileGrid.new]
    have hyx := h y x
    rcases hv : w.to_tilegrid.grid y x <;> simp_all
  · intro c g hg
    rcases c with ⟨st, len, dir⟩
    rcases dir
    · simp only [Corridor.tile, Corridor.tile_horizontal]
      refine foldl_preserve _ _ ?_ _ _ hg
      intro a b ha
      exact set_empty_tile_no_corridor _ _ _ _ (by simp)
        (set_tile_no_corridor _ _ _ _ (by simp)
          (set_empty_tile_no_corridor _ _ _ _ (by simp) ha))
    · simp only [Corridor.tile, Corridor.tile_vertical]
      refine foldl_preserve _ _ ?_ _ _ hg
      intro a b ha
      exact set_empty_tile_no_corridor _ _ _ _ (by simp)
        (set_tile_no_corridor _ _ _ _ (by simp)
          (set_empty_tile_no_corridor _ _ _ _ (by simp) ha))

/-- Witness for C10: the empty 4 by 4 grid is Corridor-free and stays so
after tiling a corridor. -/
theorem to_tilegrid_no_corridor_tile_witness :
    NoCorridorTile (TileGrid.new 4) ∧ NoCorridorTile (cdef.tile (TileGrid.new 4)) :=
  ⟨fun y x => by simp [TileGrid.new],
    to_tilegrid_no_corridor_tile.2 cdef (TileGrid.new 4) (fun y x => by simp [TileGrid.new])⟩

/-- The squared distance from a point to itself is zero. -/
theorem distance_sq_self (p : Point) : distance_sq p p = 0 := by
  simp [distance_sq, hor_dist, ver_dist]

/-- Zero squared distance forces equal points. -/
theorem distance_sq_eq_zero_imp (p q : Point) (h : distance_sq p q = 0) : p = q := by
  obtain ⟨h1, h2⟩ := Nat.add_eq_zero.mp h
  rw [pow_eq_zero_iff (two_ne_zero), Int.natAbs_eq_zero, hor_dist, sub_eq_zero] at h1
  rw [pow_eq_zero_iff (two_ne_zero), Int.natAbs_eq_zero, ver_dist, sub_eq_zero] at h2
  have hx : p.1 = q.1 := by exact_mod_cast h1.symm
  have hy : p.2 = q.2 := by exact_mod_cast h2.symm
  exact Prod.ext_iff.mpr ⟨hx, hy⟩

/-- Helper: two distinct accepted rooms have distinct centers, because each
center lies in its own padded bounding box and those boxes are disjoint. -/
theorem accepted_centers_distinct (size : Nat) (rooms : List Room)
    (hacc : roomsAccepted size rooms) (hshape : ∀ r ∈ rooms, roomFromSampling size r)
    (i k : Nat) (hi : i < rooms.length) (hk : k < rooms.length) (hne : i ≠ k) :
    (rooms.get ⟨i, hi⟩).center ≠ (rooms.get ⟨k, hk⟩).center := by
  intro heq
  obtain ⟨-, -, -, -, -, -, hieq⟩ := hshape _ (List.get_mem rooms i hi)
  obtain ⟨-, -, -, -, -, -, hkeq⟩ := hshape _ (List.get_mem rooms k hk)
  have hci := congrArg Room.center hieq
  have hck := congrArg Room.center hkeq
  simp only [Room.new] at hci hck
  have hi1 := congrArg Prod.fst hci
  have hi2 := congrArg Prod.snd hci
  have hk1 := congrArg Prod.fst hck
  have hk2 := congrArg Prod.snd hck
  simp only at hi1 hi2 hk1 hk2
  have hboxi : inPaddedBox (rooms.get ⟨i, hi⟩) 2
      (rooms.get ⟨i, hi⟩).center.1 (rooms.get ⟨i, hi⟩).center.2 := by
    simp only [inPaddedBox]
    refine ⟨?_, ?_, ?_, ?_⟩ <;> omega
  have hboxk : inPaddedBox (rooms.get ⟨k, hk⟩) 2
      (rooms.get ⟨i, hi⟩).center.1 (rooms.get ⟨i, hi⟩).center.2 := by
    rw [heq]
    simp only [inPaddedBox]
    refine ⟨?_, ?_, ?_, ?_⟩ <;> omega
  rcases Nat.lt_or_ge i k with hlt | hge
  · exact accepted_ordered_disjoint size rooms hacc i k hlt hk ⟨_, _, hboxi, hboxk⟩
  · have hlt : k < i := by omega
    exact accepted_ordered_disjoint size rooms hacc k i hlt hi ⟨_, _, hboxk, hboxi⟩

/-- Helper: on a room list whose only zero-distance entry from the probe point
is the room at index i, the second element of the stably sorted distance list
of World::room_distances is a nearest other room: a valid index j distinct
from i whose distance is minimal among all indices other than i. -/
theorem room_distances_nearest (size : Nat) (rooms : List Room) (c : Point) (i : Nat)
    (hi : i < rooms.length) (hlen : 2 ≤ rooms.length)
    (hc : distance_sq c ((rooms.get ⟨i, hi⟩).center) = 0)
    (hpos : ∀ k, (hk : k < rooms.length) → k ≠ i →
      distance_sq c ((rooms.get ⟨k, hk⟩).center) ≠ 0) :
    ∃ j, ∃ hj : j < rooms.length, j ≠ i ∧
      ((World.mk size rooms []).room_distances c).getD 1 (0, 0) =
        (j, distance_sq c ((rooms.get ⟨j, hj⟩).center)) ∧
      ∀ k, (hk : k < rooms.length) → k ≠ i →
        distance_sq c ((rooms.get ⟨j, hj⟩).center) ≤
          distance_sq c ((rooms.get ⟨k, hk⟩).center) := by
  set L : List (Nat × Nat) :=
    rooms.enum.map (fun p => (p.1, distance_sq c p.2.center)) with hL
  set s : List (Nat × Nat) := List.insertionSort distLe L with hs
  have hLlen : L.length = rooms.length := by simp [hL]
  have hslen : s.length = rooms.length := by rw [hs, List.length_insertionSort]; exact hLlen
  have hperm : s.Perm L := List.perm_insertionSort distLe L
  have hsorted : List.Sorted distLe s := List.sorted_insertionSort distLe L
  have hmemL : ∀ a ∈ L, ∃ (k : Nat) (hk : k < rooms.length),
      a = (k, distance_sq c ((rooms.get ⟨k, hk⟩).center)) := by
    intro a ha
    rw [hL, List.mem_map] at ha
    obtain ⟨b, hb, rfl⟩ := ha
    rw [List.mem_enum_iff_getElem?] at hb
    obtain ⟨hk, hbv⟩ := List.getElem?_eq_some.mp hb
    exact ⟨b.1, hk, by rw [← hbv]; rfl⟩
  have hLmem : ∀ k, (hk : k < rooms.length) →
      ((k, distance_sq c ((rooms.get ⟨k, hk⟩).center)) : Nat × Nat) ∈ L := by
    intro k hk
    rw [hL, List.mem_map]
    refine ⟨(k, rooms.get ⟨k, hk⟩), ?_, rfl⟩
    rw [List.mem_enum_iff_getElem?, List.getElem?_eq_some]
    exact ⟨hk, rfl⟩
  have hnodup : (s.map Prod.fst).Nodup := by
    have h1 : L.map Prod.fst = List.range rooms.length := by
      rw [hL, List.map_map]
      have hcomp : (Prod.fst ∘ fun p : Nat × Room => (p.1, distance_sq c p.2.center)) =
          Prod.fst := by
        funext p
        rfl
      rw [hcomp, List.enum_map_fst]
    have h2 : (s.map Prod.fst).Perm (L.map Prod.fst) := hperm.map Prod.fst
    rw [h2.nodup_iff, h1]
    exact List.nodup_range rooms.length
  have h0lt : 0 < s.length := by omega
  have h1lt : 1 < s.length := by omega
  have hz : ((i, 0) : Nat × Nat) ∈ s := by
    rw [hperm.mem_iff]
    have hm := hLmem i hi
    rwa [hc] at hm
  obtain ⟨m0, hm0⟩ := List.mem_iff_get.mp hz
  have hs0 : s.get ⟨0, h0lt⟩ = (i, 0) := by
    have hle : distLe (s.get ⟨0, h0lt⟩) (s.get m0) := by
      rcases Nat.eq_zero_or_pos m0.1 with hze | hpos0
      · have hfin : m0 = ⟨0, h0lt⟩ := Fin.ext hze
        rw [hfin]
        exact Nat.le_refl _
      · exact hsorted.rel_get_of_lt hpos0
    rw [hm0] at hle
    have h2z : (s.get ⟨0, h0lt⟩).2 = 0 := Nat.le_zero.mp hle
    have hmem0 : s.get ⟨0, h0lt⟩ ∈ L := (hperm.mem_iff).mp (List.get_mem s 0 h0lt)
    obtain ⟨k, hk, hkeq⟩ := hmemL _ hmem0
    by_cases hki : k = i
    · subst hki
      rw [hkeq] at h2z ⊢
      simp only at h2z
      rw [h2z]
    · exfalso
      apply hpos k hk hki
      rw [hkeq] at h2z
      exact h2z
  have hmem1 : s.get ⟨1, h1lt⟩ ∈ L := (hperm.mem_iff).mp (List.get_mem s 1 h1lt)
  obtain ⟨j, hj, hjeq⟩ := hmemL _ hmem1
  have hjne : j ≠ i := by
    intro hji
    have hlen0 : (0 : Nat) < (s.map Prod.fst).length := by
      rw [List.length_map]
      exact h0lt
    have hlen1 : (1 : Nat) < (s.map Prod.fst).length := by
      rw [List.length_map]
      exact h1lt
    have hfst0 : (s.map Prod.fst).get ⟨0, hlen0⟩ = i := by
      rw [List.get_map, hs0]
    have hfst1 : (s.map Prod.fst).get ⟨1, hlen1⟩ = i := by
      rw [List.get_map, hjeq]
      exact hji
    have hcon := hnodup.get_inj_iff.mp (hfst0.trans hfst1.symm)
    simp only [Fin.mk.injEq] at hcon
    exact absurd hcon (by decide)
  have hmin : ∀ k, (hk : k < rooms.length) → k ≠ i →
      (s.get ⟨1, h1lt⟩).2 ≤ distance_sq c ((rooms.get ⟨k, hk⟩).center) := by
    intro k hk hki
    have hkmem : ((k, distance_sq c ((rooms.get ⟨k, hk⟩).center)) : Nat × Nat) ∈ s := by
      rw [hperm.mem_iff]
      exact hLmem k hk
    obtain ⟨m, hm⟩ := List.mem_iff_get.mp hkmem
    have hm0ne : m.1 ≠ 0 := by
      intro h0
      have hfin : m = ⟨0, h0lt⟩ := Fin.ext h0
      rw [hfin, hs0] at hm
      exact hki (congrArg Prod.fst hm.symm)
    rcases Nat.lt_or_ge 1 m.1 with hgt | hle2
    · have hrel := hsorted.rel_get_of_lt (show (⟨1, h1lt⟩ : Fin s.length) < m from hgt)
      rw [hm] at hrel
      exact hrel
    · have hm1 : m.1 = 1 := by omega
      have hfin : m = ⟨1, h1lt⟩ := Fin.ext hm1
      rw [hfin] at hm
      rw [hm]
  have hroomd : (World.mk size rooms []).room_distances c = s := rfl
  have hgetD : ((World.mk size rooms []).room_distances c).getD 1 (0, 0) =
      s.get ⟨1, h1lt⟩ := by
    rw [hroomd, List.getD_eq_getElem?_getD, List.getElem?_eq_getElem h1lt]
    rfl
  refine ⟨j, hj, hjne, by rw [hgetD, hjeq], ?_⟩
  intro k hk hki
  have hmk := hmin k hk hki
  rw [hjeq] at hmk
  exact hmk

/-- Helper: the corridor derived for the room at index i, as a function of the
sorted distance list, read off from the map in generateCorridors. -/
theorem generateCorridors_getD (size : Nat) (rooms : List Room) (i : Nat)
    (hi : i < rooms.length) :
    (generateCorridors size rooms).getD i cdef =
      Corridor.new ((rooms.get ⟨i, hi⟩).center)
        (hor_dist ((rooms.get ⟨i, hi⟩).center)
          ((rooms.getD
            (((World.mk size rooms []).room_distances
              ((rooms.get ⟨i, hi⟩).center)).getD 1 (0, 0)).1
            (Room.new (0, 0) 0 0)).center)).toNat
        CorridorType.Horizontal := by
  rw [generateCorridors, List.getD_eq_getElem?_getD, List.getElem?_map,
    List.getElem?_eq_getElem hi]
  rfl

/-- C4 as stated is false on the code: in the generated world3, the room at
index 1 (center (11, 1)) has unique nearest other room at center (1, 1); the
horizontal component of the distance between the two centers has magnitude 10
(signed value -10), yet the corridor created for that room has length 0,
because the negative signed f32 distance is cast to usize, saturating at 0. -/
theorem corridor_length_saturates :
    GeneratedWorld world3 ∧
    hor_dist (11, 1) (1, 1) = -10 ∧
    (∀ k, k < 3 → k ≠ 1 →
      distance_sq (11, 1) (1, 1) ≤ distance_sq (11, 1) ((rooms3.getD k rdef).center)) ∧
    world3.corridors.getD 1 cdef = Corridor.new (11, 1) 0 CorridorType.Horizontal ∧
    (0 : Nat) ≠ (hor_dist (11, 1) (1, 1)).natAbs := by
  refine ⟨by decide, by decide, by decide, by decide, by decide⟩

/-- C4 amended: for every room of a generated World, exactly one corridor is
created, starting at that room's center, horizontal, targeting a nearest
other room by Euclidean distance (the room itself, at distance zero, is
skipped); its length is the toNat of the signed horizontal component of the
distance to that nearest center — the horizontal component itself when the
neighbor is not to the left, and 0 otherwise (saturating cast). -/
theorem generate_one_corridor_per_room (w : World) (hgen : GeneratedWorld w)
    (i : Nat) (hi : i < w.rooms.length) :
    w.corridors.length = w.rooms.length ∧
    ∃ j, ∃ hj : j < w.rooms.length, j ≠ i ∧
      (∀ k, (hk : k < w.rooms.length) → k ≠ i →
        distance_sq ((w.rooms.get ⟨i, hi⟩).center) ((w.rooms.get ⟨j, hj⟩).center) ≤
          distance_sq ((w.rooms.get ⟨i, hi⟩).center) ((w.rooms.get ⟨k, hk⟩).center)) ∧
      w.corridors.getD i cdef =
        Corridor.new ((w.rooms.get ⟨i, hi⟩).center)
          (hor_dist ((w.rooms.get ⟨i, hi⟩).center) ((w.rooms.get ⟨j, hj⟩).center)).toNat
          CorridorType.Horizontal := by
  obtain ⟨hlen3, -, hshape, hacc, hcorr⟩ := hgen
  have hlen2 : 2 ≤ w.rooms.length := by omega
  have hpos : ∀ k, (hk : k < w.rooms.length) → k ≠ i →
      distance_sq ((w.rooms.get ⟨i, hi⟩).center) ((w.rooms.get ⟨k, hk⟩).center) ≠ 0 := by
    intro k hk hki hzero
    exact accepted_centers_distinct w.size w.rooms hacc hshape i k hi hk
      (fun h => hki h.symm) (distance_sq_eq_zero_imp _ _ hzero)
  obtain ⟨j, hj, hjne, hgetD, hmin⟩ := room_distances_nearest w.size w.rooms
    ((w.rooms.get ⟨i, hi⟩).center) i hi hlen2 (distance_sq_self _) hpos
  constructor
  · rw [hcorr, generateCorridors, List.length_map]
  refine ⟨j, hj, hjne, hmin, ?_⟩
  rw [hcorr, generateCorridors_getD w.size w.rooms i hi, hgetD]
  have hnear : w.rooms.getD j (Room.new (0, 0) 0 0) = w.rooms.get ⟨j, hj⟩ := by
    rw [List.getD_eq_getElem?_getD, List.getElem?_eq_getElem hj]
    rfl
  rw [hnear]

/-- Witness for the amended C4 on world3 at room index 0: its corridor starts
at (1, 1), is horizontal, and targets a nearest other room. -/
theorem generate_one_corridor_per_room_witness :
    GeneratedWorld world3 ∧
    (world3.corridors.length = world3.rooms.length ∧
      ∃ j, ∃ hj : j < world3.rooms.length, j ≠ 0 ∧
        (∀ k, (hk : k < world3.rooms.length) → k ≠ 0 →
          distance_sq ((world3.rooms.get ⟨0, by decide⟩).center)
              ((world3.rooms.get ⟨j, hj⟩).center) ≤
            distance_sq ((world3.rooms.get ⟨0, by decide⟩).center)
              ((world3.rooms.get ⟨k, hk⟩).center)) ∧
        world3.corridors.getD 0 cdef =
          Corridor.new ((world3.rooms.get ⟨0, by decide⟩).center)
            (hor_dist ((world3.rooms.get ⟨0, by decide⟩).center)
              ((world3.rooms.get ⟨j, hj⟩).center)).toNat
            CorridorType.Horizontal) :=
  ⟨by decide, generate_one_corridor_per_room world3 (by decide) 0 (by decide)⟩

/-- C9: to_tilegrid takes the World by shared reference and returns it
unchanged, and a second call on the returned World yields a grid with
identical cell contents. -/
theorem to_tilegrid_pure (w : World) :
    w.to_tilegrid_call.2 = w ∧
    ∀ y x, w.to_tilegrid_call.2.to_tilegrid_call.1.grid y x = w.to_tilegrid_call.1.grid y x :=
  ⟨rfl, fun _ _ => rfl⟩
